import Mathlib

/-!
Verification development for the Telegram task-monitor bot (src/van.py).

The file embeds the decision logic of the source as executable Lean
definitions and proves, or refutes, the frozen specification claims about
it.  Python floats appear only as difflib ratios, which are exact
rationals of the form 2*M/T, so scores are modelled with the type Rat.
-/

/-! ### Global configuration constants (van.py lines 52-58) -/

def check_interval : Nat := 20

def max_retries : Nat := 5

def retry_delay : Nat := 2

/-! ### Similarity matcher

Modelled from the spec: the source line 60-61 is
  def similar(a, b): return SequenceMatcher(None, a.lower(), b.lower()).ratio()
and difflib is a standard-library collaborator whose code is not part of
src/.  The model follows the spec (a Ratcliff/Obershelp normalized
common-subsequence ratio) and the documented difflib contract for
isjunk=None: find the longest matching block, breaking ties by the
earliest start in the first sequence and then in the second, recurse on
the pieces to the left and to the right of the block, and return
2 * (total matched length) / (total length), with ratio 1 for two empty
sequences.  The autojunk suppression of popular elements, which difflib
applies only when the second sequence has length at least 200, is not
modelled.  Python str.lower is modelled as a character-wise lowering.
-/

def lowerChars (s : List Char) : List Char := s.map Char.toLower

/-- Length of the longest common prefix of two character lists. -/
def commonPrefixLen : List Char → List Char → Nat
  | a :: as, b :: bs => if a = b then commonPrefixLen as bs + 1 else 0
  | _, _ => 0

/-- Length of the matching block of `a` and `b` that starts at offsets `i`, `j`. -/
def matchAt (a b : List Char) (i j : Nat) : Nat :=
  commonPrefixLen (a.drop i) (b.drop j)

/-- Candidate start offsets (i, j) with i < la and j < lb, in row-major order. -/
def pairsUpTo (lb : Nat) : Nat → List (Nat × Nat)
  | 0 => []
  | i + 1 => pairsUpTo lb i ++ (List.range lb).map (fun j => (i, j))

/-- Fold that keeps the first maximal matching block, as a triple (i, j, size). -/
def flmFold (a b : List Char) : Nat × Nat × Nat → List (Nat × Nat) → Nat × Nat × Nat
  | best, [] => best
  | best, (i, j) :: rest =>
    if matchAt a b i j > best.2.2 then flmFold a b (i, j, matchAt a b i j) rest
    else flmFold a b best rest

/-- Longest matching block of `a` and `b`: maximal size, ties broken by the
earliest start in `a` and then in `b`; (0, 0, 0) when nothing matches. -/
def findLongestMatch (a b : List Char) : Nat × Nat × Nat :=
  flmFold a b (0, 0, 0) (pairsUpTo b.length a.length)

/-- Total size of all matching blocks, by recursion on the two sides of the
longest block.  The fuel argument is structural and is instantiated with a
sufficient value by `matchTotal`. -/
def matchTotalGo : Nat → List Char → List Char → Nat
  | 0, _, _ => 0
  | fuel + 1, a, b =>
    let r := findLongestMatch a b
    if r.2.2 = 0 then 0
    else
      matchTotalGo fuel (a.take r.1) (b.take r.2.1) + r.2.2 +
        matchTotalGo fuel (a.drop (r.1 + r.2.2)) (b.drop (r.2.1 + r.2.2))

def matchTotal (a b : List Char) : Nat := matchTotalGo (a.length + b.length) a b

/-- The difflib ratio: 2 * matches / total length, and 1 when both are empty.
The division is exact rational division, written with Rat.divInt so that the
value computes inside the kernel. -/
def ratio (a b : List Char) : ℚ :=
  if a.length + b.length = 0 then 1
  else Rat.divInt (2 * (matchTotal a b : Int)) ((a.length : Int) + (b.length : Int))

/-- van.py line 60-61: similarity of two labels, case-insensitive. -/
def similar (a b : String) : ℚ :=
  ratio (lowerChars a.data) (lowerChars b.data)

/-! ### Button selector (van.py lines 134-160) -/

abbrev ButtonGrid := List (List (Option String))

/-- van.py line 144: text = btn.text or "". -/
def btnText (b : Option String) : String := b.getD ""

def rowCells (r : Nat) : Nat → List (Option String) → List (Nat × Nat × Option String)
  | _, [] => []
  | c, b :: rest => (r, c, b) :: rowCells r (c + 1) rest

def gridCells : Nat → ButtonGrid → List (Nat × Nat × Option String)
  | _, [] => []
  | r, row :: rest => rowCells r 0 row ++ gridCells (r + 1) rest

/-- All cells of the grid with their coordinates, in row-major order, as
enumerated by the two nested loops of the source. -/
def cells (g : ButtonGrid) : List (Nat × Nat × Option String) := gridCells 0 g

/-- Score of one cell against the target label, van.py line 145. -/
def cellScore (target : String) (x : Nat × Nat × Option String) : ℚ :=
  similar (btnText x.2.2) target

/-- The scan of van.py lines 139-148: starting from best_score = 0 and
best_position = (0, 0), a cell replaces the best exactly when it scores
strictly higher. -/
def scanBest (target : String) : ℚ × Nat × Nat → List (Nat × Nat × Option String) → ℚ × Nat × Nat
  | best, [] => best
  | best, x :: rest =>
    if cellScore target x > best.1 then scanBest target (cellScore target x, x.1, x.2.1) rest
    else scanBest target best rest

/-- Best score reached by the scan over the whole grid. -/
def bestScoreOf (g : ButtonGrid) (target : String) : ℚ :=
  (scanBest target (0, 0, 0) (cells g)).1

/-- van.py lines 134-160: the clicked coordinates, or none when the grid is
empty or the best score stays below the threshold.  The source returns a
boolean and clicks as a side effect; the Option value records exactly which
coordinates are clicked.  A click rejected by the transport changes the
returned boolean of the source but not the chosen coordinates. -/
def click_button_by_relation (g : ButtonGrid) (target_text : String) (threshold : ℚ) :
    Option (Nat × Nat) :=
  if g = [] then none
  else
    let best := scanBest target_text (0, 0, 0) (cells g)
    if best.1 ≥ threshold then some (best.2.1, best.2.2) else none

/-! ### Count extractor (van.py lines 199-217) -/

def activeTasksMarker : String := "Active Tasks"

/-- The literal bullet marker of van.py line 207: four characters once the
file bytes are decoded as UTF-8. -/
def bulletMarker : String := "üîπ"

/-- Substring test, modelling the Python in operator on str. -/
def containsStr (s pat : String) : Bool :=
  (List.range (s.data.length + 1)).any (fun i => pat.data.isPrefixOf (s.data.drop i))

/-- Left-to-right non-overlapping occurrence count, modelling str.count for
a non-empty pattern.  The first argument mirrors the scan position as fuel;
every step drops one character or a whole non-empty match, so the length of
the text is sufficient fuel. -/
def countOccurGo (pat : List Char) : Nat → List Char → Nat
  | 0, _ => 0
  | _ + 1, [] => 0
  | fuel + 1, c :: rest =>
    if pat.isPrefixOf (c :: rest) then 1 + countOccurGo pat fuel ((c :: rest).drop pat.length)
    else countOccurGo pat fuel rest

def countOccur (s pat : String) : Nat := countOccurGo pat.data s.data.length s.data

/-- van.py lines 199-217.  Inputs: the outcome of navigate_to_tasks and the
text of the single most recent message retrieved with limit 1 (none when
the message has no text).  A navigation failure yields 0; a most recent
message without the task-list marker yields 0; otherwise the literal bullet
occurrences in the text are counted.  The except branch of the source also
returns 0 and is unreachable in this pure model. -/
def get_task_count (navOk : Bool) (recent : List (Option String)) : Nat :=
  if navOk then
    match recent.head? with
    | some (some t) =>
      if t ≠ "" ∧ containsStr t activeTasksMarker = true then countOccur t bulletMarker else 0
    | some none => 0
    | none => 0
  else 0

/-! ### Notification dispatcher (van.py lines 63-81 and 219-243) -/

inductive Dest where
  | primary
  | owner
deriving DecidableEq

structure SendEvent where
  dest : Dest
  text : String
deriving DecidableEq

/-- Exact wrapper of van.py line 65, with ts standing for the formatted UTC
timestamp produced by strftime. -/
def errorWrap (error_msg ts : String) : String :=
  "‚ùå BOT ERROR ‚ùå\n\n" ++ error_msg ++ "\n\nTime: " ++ ts

/-- van.py lines 63-81: the wrapped report goes to the notification group
when the entity is resolved and to the owner when BOT_OWNER_ID is set. -/
def send_error_notification (entityResolved ownerConfigured : Bool) (error_msg ts : String) :
    List SendEvent :=
  (if entityResolved then [⟨Dest.primary, errorWrap error_msg ts⟩] else []) ++
  (if ownerConfigured then [⟨Dest.owner, errorWrap error_msg ts⟩] else [])

/-- Timestamp stamping of van.py line 231. -/
def stampInfo (msg ts : String) : String := msg ++ "\n\n‚è∞ " ++ ts

/-- van.py lines 219-243: whether the send succeeded, together with the
attempted sends.  entityResolved says the target is resolved or resolvable,
deliverOk that the transport accepts the send, excStr the text of the
transport error otherwise. -/
def send_notification (entityResolved ownerConfigured deliverOk : Bool)
    (msg ts excStr : String) (is_error : Bool) : Bool × List SendEvent :=
  if entityResolved = false then (false, [])
  else
    let full_msg := if is_error = false then stampInfo msg ts else msg
    if deliverOk then (true, [⟨Dest.primary, full_msg⟩])
    else
      (false, ⟨Dest.primary, full_msg⟩ ::
        send_error_notification entityResolved ownerConfigured ("Notification failed: " ++ excStr) ts)

/-! ### Monitor loop (van.py lines 258-297) -/

structure MonitorState where
  last_task_count : Nat
  last_notification_time : Option Nat
deriving DecidableEq

inductive NotifKind where
  | availableK (count : Nat)
  | clearedK
deriving DecidableEq

inductive CycleEvent where
  | notif (kind : NotifKind) (delivered : Bool)
  | errorReported
  | reconnected
deriving DecidableEq

/-- Outcome of the body of one cycle as seen by the loop: an observed count,
or an exception escaping to the except handler. -/
inductive CycleObs where
  | count (n : Nat)
  | exc
deriving DecidableEq

/-- Input of one cycle: the body outcome together with whether
send_notification would succeed this cycle (false covers both an
unresolvable destination and a rejected send). -/
structure CycleInput where
  obs : CycleObs
  deliverOk : Bool
deriving DecidableEq

def isAvailNotif : CycleEvent → Bool
  | CycleEvent.notif (NotifKind.availableK _) _ => true
  | _ => false

/-- One iteration of the while body, van.py lines 262-297.  In the branch
for a changed positive count the source formats its message with the name
TARGET_Bot (line 272) while the global is TARGET_BOT (line 42); building
that message raises NameError before any send, so the except handler of
lines 291-295 sends an error report and reconnects, leaving the state
untouched.  The cleared branch (lines 280-289) is well formed and updates
last_task_count only when the send succeeds.  The sleep of line 297 runs on
every path and is returned as the pause length. -/
def monitorCycle (s : MonitorState) (inp : CycleInput) : MonitorState × List CycleEvent × Nat :=
  match inp.obs with
  | CycleObs.exc => (s, [CycleEvent.errorReported, CycleEvent.reconnected], check_interval)
  | CycleObs.count count =>
    if count > 0 ∧ count ≠ s.last_task_count then
      (s, [CycleEvent.errorReported, CycleEvent.reconnected], check_interval)
    else if count = 0 ∧ s.last_task_count > 0 then
      if inp.deliverOk then
        ({ s with last_task_count := 0 }, [CycleEvent.notif NotifKind.clearedK true], check_interval)
      else (s, [CycleEvent.notif NotifKind.clearedK false], check_interval)
    else (s, [], check_interval)

/-- The while loop run over a finite prefix of cycle inputs; it consumes
every input and reports the events and pause of each cycle. -/
def monitorRun (s : MonitorState) : List CycleInput → MonitorState × List (List CycleEvent × Nat)
  | [] => (s, [])
  | inp :: rest =>
    let c := monitorCycle s inp
    let r := monitorRun c.1 rest
    (r.1, (c.2.1, c.2.2) :: r.2)

/-- The observation sequence of the transition-correctness scenario, with
every delivery succeeding. -/
def c1Inputs : List CycleInput :=
  [⟨CycleObs.count 0, true⟩, ⟨CycleObs.count 3, true⟩, ⟨CycleObs.count 3, true⟩,
   ⟨CycleObs.count 0, true⟩, ⟨CycleObs.count 0, true⟩, ⟨CycleObs.count 5, true⟩]

/-! ### Resilience supervisor (van.py lines 299-349) -/

inductive AttemptOutcome where
  | success
  | floodWait (seconds : Nat)
  | sessionPasswordNeeded
  | notAuthorized
  | genericFailure
deriving DecidableEq

inductive REvent where
  | attemptStarted (i : Nat)
  | errorReported
  | floodSlept (seconds : Nat)
  | retryDelaySlept
  | criticalReported
deriving DecidableEq

def isAttemptStart : REvent → Bool
  | REvent.attemptStarted _ => true
  | _ => false

/-- The for loop of van.py lines 303-344, by remaining iterations.  oc gives
the outcome of the attempt body at each loop index: a successful reconnect
(return True), a FloodWaitError (error report, sleep of the signalled
seconds, loop moves on), a SessionPasswordNeededError (error report, break
to the critical block), a connected but unauthorized session (continue with
no sleep), or any other exception (sleep of retry_delay).  Exhausting the
loop reaches lines 346-349: a critical report and return False. -/
def reconnectGo (oc : Nat → AttemptOutcome) : Nat → Nat → Bool × List REvent
  | _, 0 => (false, [REvent.criticalReported])
  | attempt, fuel + 1 =>
    match oc attempt with
    | AttemptOutcome.success => (true, [REvent.attemptStarted attempt])
    | AttemptOutcome.floodWait s =>
      let r := reconnectGo oc (attempt + 1) fuel
      (r.1, REvent.attemptStarted attempt :: REvent.errorReported :: REvent.floodSlept s :: r.2)
    | AttemptOutcome.sessionPasswordNeeded =>
      (false, [REvent.attemptStarted attempt, REvent.errorReported, REvent.criticalReported])
    | AttemptOutcome.notAuthorized =>
      let r := reconnectGo oc (attempt + 1) fuel
      (r.1, REvent.attemptStarted attempt :: r.2)
    | AttemptOutcome.genericFailure =>
      let r := reconnectGo oc (attempt + 1) fuel
      (r.1, REvent.attemptStarted attempt :: REvent.retryDelaySlept :: r.2)

def reconnect (oc : Nat → AttemptOutcome) : Bool × List REvent :=
  reconnectGo oc 0 max_retries

/-- Attempt index i is reached by the loop: every earlier loop index ended
in an outcome that lets the loop continue. -/
abbrev noEarlyExit (oc : Nat → AttemptOutcome) (i : Nat) : Prop :=
  ∀ j, j < i → oc j ≠ AttemptOutcome.success ∧ oc j ≠ AttemptOutcome.sessionPasswordNeeded

/-! ### Facts about the matcher -/

theorem commonPrefixLen_nil_right : ∀ x : List Char, commonPrefixLen x [] = 0 := by
  intro x
  cases x <;> rfl

theorem commonPrefixLen_le_left : ∀ a b : List Char, commonPrefixLen a b ≤ a.length := by
  intro a
  induction a with
  | nil => intro b; cases b <;> simp [commonPrefixLen]
  | cons x xs ih =>
    intro b
    cases b with
    | nil => simp [commonPrefixLen_nil_right]
    | cons y ys =>
      simp only [commonPrefixLen, List.length_cons]
      by_cases h : x = y
      · rw [if_pos h]
        exact Nat.succ_le_succ (ih ys)
      · rw [if_neg h]
        exact Nat.zero_le _

theorem commonPrefixLen_le_right : ∀ a b : List Char, commonPrefixLen a b ≤ b.length := by
  intro a
  induction a with
  | nil => intro b; cases b <;> simp [commonPrefixLen]
  | cons x xs ih =>
    intro b
    cases b with
    | nil => simp [commonPrefixLen_nil_right]
    | cons y ys =>
      simp only [commonPrefixLen, List.length_cons]
      by_cases h : x = y
      · rw [if_pos h]
        exact Nat.succ_le_succ (ih ys)
      · rw [if_neg h]
        exact Nat.zero_le _

theorem commonPrefixLen_self : ∀ a : List Char, commonPrefixLen a a = a.length := by
  intro a
  induction a with
  | nil => rfl
  | cons x xs ih => simp [commonPrefixLen, ih]

theorem pairsUpTo_mem (lb : Nat) : ∀ (n : Nat) (x y : Nat), (x, y) ∈ pairsUpTo lb n ↔ x < n ∧ y < lb := by
  intro n
  induction n with
  | zero => intro x y; simp [pairsUpTo]
  | succ m ih =>
    intro x y
    simp only [pairsUpTo, List.mem_append, List.mem_map, List.mem_range, ih]
    constructor
    · rintro (h | ⟨j, hj, heq⟩)
      · exact ⟨Nat.lt_succ_of_lt h.1, h.2⟩
      · obtain ⟨h1, h2⟩ := Prod.mk.injEq m j x y ▸ heq
        exact ⟨h1 ▸ Nat.lt_succ_self m, h2 ▸ hj⟩
    · rintro ⟨h1, h2⟩
      rcases Nat.lt_succ_iff_lt_or_eq.mp h1 with h | h
      · exact Or.inl ⟨h, h2⟩
      · exact Or.inr ⟨y, h2, by rw [h]⟩

theorem flmFold_ge (a b : List Char) :
    ∀ (l : List (Nat × Nat)) (best : Nat × Nat × Nat), best.2.2 ≤ (flmFold a b best l).2.2 := by
  intro l
  induction l with
  | nil => intro best; simp [flmFold]
  | cons p rest ih =>
    intro best
    obtain ⟨i, j⟩ := p
    simp only [flmFold]
    by_cases h : matchAt a b i j > best.2.2
    · rw [if_pos h]
      exact le_trans (le_of_lt h) (ih (i, j, matchAt a b i j))
    · rw [if_neg h]
      exact ih best

theorem flmFold_le_all (a b : List Char) :
    ∀ (l : List (Nat × Nat)) (best : Nat × Nat × Nat) (p : Nat × Nat), p ∈ l →
      matchAt a b p.1 p.2 ≤ (flmFold a b best l).2.2 := by
  intro l
  induction l with
  | nil =>
    intro best p hp
    cases hp
  | cons q rest ih =>
    intro best p hp
    obtain ⟨i, j⟩ := q
    simp only [flmFold]
    rcases List.mem_cons.mp hp with h | h
    · subst h
      by_cases hgt : matchAt a b i j > best.2.2
      · rw [if_pos hgt]
        exact flmFold_ge a b rest (i, j, matchAt a b i j)
      · rw [if_neg hgt]
        exact le_trans (Nat.le_of_not_lt hgt) (flmFold_ge a b rest best)
    · by_cases hgt : matchAt a b i j > best.2.2
      · rw [if_pos hgt]
        exact ih _ p h
      · rw [if_neg hgt]
        exact ih best p h

theorem matchAt_le_left (a b : List Char) (i j : Nat) : matchAt a b i j ≤ a.length - i := by
  have := commonPrefixLen_le_left (a.drop i) (b.drop j)
  simpa [matchAt, List.length_drop] using this

theorem matchAt_le_right (a b : List Char) (i j : Nat) : matchAt a b i j ≤ b.length - j := by
  have := commonPrefixLen_le_right (a.drop i) (b.drop j)
  simpa [matchAt, List.length_drop] using this

theorem flmFold_bounds (a b : List Char) :
    ∀ (l : List (Nat × Nat)) (best : Nat × Nat × Nat),
      best.1 + best.2.2 ≤ a.length → best.2.1 + best.2.2 ≤ b.length →
      (flmFold a b best l).1 + (flmFold a b best l).2.2 ≤ a.length ∧
      (flmFold a b best l).2.1 + (flmFold a b best l).2.2 ≤ b.length := by
  intro l
  induction l with
  | nil =>
    intro best h1 h2
    simp only [flmFold]
    exact ⟨h1, h2⟩
  | cons q rest ih =>
    intro best h1 h2
    obtain ⟨i, j⟩ := q
    simp only [flmFold]
    by_cases hgt : matchAt a b i j > best.2.2
    · rw [if_pos hgt]
      apply ih
      · have hle := matchAt_le_left a b i j
        have hk : 1 ≤ matchAt a b i j := by omega
        show i + matchAt a b i j ≤ a.length
        omega
      · have hle := matchAt_le_right a b i j
        have hk : 1 ≤ matchAt a b i j := by omega
        show j + matchAt a b i j ≤ b.length
        omega
    · rw [if_neg hgt]
      exact ih best h1 h2

theorem findLongestMatch_bounds (a b : List Char) :
    (findLongestMatch a b).1 + (findLongestMatch a b).2.2 ≤ a.length ∧
    (findLongestMatch a b).2.1 + (findLongestMatch a b).2.2 ≤ b.length :=
  flmFold_bounds a b _ (0, 0, 0) (by simp) (by simp)

theorem findLongestMatch_max (a b : List Char) (i j : Nat) :
    matchAt a b i j ≤ (findLongestMatch a b).2.2 := by
  by_cases hi : i < a.length
  · by_cases hj : j < b.length
    · exact flmFold_le_all a b _ (0, 0, 0) (i, j) ((pairsUpTo_mem b.length a.length i j).mpr ⟨hi, hj⟩)
    · have hd : b.drop j = [] := List.drop_eq_nil_of_le (le_of_not_lt hj)
      have : matchAt a b i j = 0 := by
        rw [matchAt, hd, commonPrefixLen_nil_right]
      omega
  · have hd : a.drop i = [] := List.drop_eq_nil_of_le (le_of_not_lt hi)
    have : matchAt a b i j = 0 := by
      rw [matchAt, hd]
      cases b.drop j <;> rfl
    omega

theorem findLongestMatch_self (a : List Char) : findLongestMatch a a = (0, 0, a.length) := by
  have hub : (findLongestMatch a a).1 + (findLongestMatch a a).2.2 ≤ a.length :=
    (findLongestMatch_bounds a a).1
  have hub2 : (findLongestMatch a a).2.1 + (findLongestMatch a a).2.2 ≤ a.length :=
    (findLongestMatch_bounds a a).2
  have hge : a.length ≤ (findLongestMatch a a).2.2 := by
    have h := findLongestMatch_max a a 0 0
    rw [matchAt, List.drop_zero, commonPrefixLen_self] at h
    exact h
  have h1 : (findLongestMatch a a).1 = 0 := by omega
  have h2 : (findLongestMatch a a).2.1 = 0 := by omega
  have h3 : (findLongestMatch a a).2.2 = a.length := by omega
  exact Prod.ext h1 (Prod.ext h2 h3)

theorem matchTotalGo_le_left : ∀ (fuel : Nat) (a b : List Char), matchTotalGo fuel a b ≤ a.length := by
  intro fuel
  induction fuel with
  | zero => intro a b; simp [matchTotalGo]
  | succ n ih =>
    intro a b
    simp only [matchTotalGo]
    by_cases hk : (findLongestMatch a b).2.2 = 0
    · rw [if_pos hk]
      exact Nat.zero_le _
    · rw [if_neg hk]
      have hb := (findLongestMatch_bounds a b).1
      have l1 := ih (a.take (findLongestMatch a b).1) (b.take (findLongestMatch a b).2.1)
      have l2 := ih (a.drop ((findLongestMatch a b).1 + (findLongestMatch a b).2.2))
        (b.drop ((findLongestMatch a b).2.1 + (findLongestMatch a b).2.2))
      rw [List.length_take] at l1
      rw [List.length_drop] at l2
      omega

theorem matchTotalGo_le_right : ∀ (fuel : Nat) (a b : List Char), matchTotalGo fuel a b ≤ b.length := by
  intro fuel
  induction fuel with
  | zero => intro a b; simp [matchTotalGo]
  | succ n ih =>
    intro a b
    simp only [matchTotalGo]
    by_cases hk : (findLongestMatch a b).2.2 = 0
    · rw [if_pos hk]
      exact Nat.zero_le _
    · rw [if_neg hk]
      have hb := (findLongestMatch_bounds a b).2
      have l1 := ih (a.take (findLongestMatch a b).1) (b.take (findLongestMatch a b).2.1)
      have l2 := ih (a.drop ((findLongestMatch a b).1 + (findLongestMatch a b).2.2))
        (b.drop ((findLongestMatch a b).2.1 + (findLongestMatch a b).2.2))
      rw [List.length_take] at l1
      rw [List.length_drop] at l2
      omega

theorem matchTotalGo_nil : ∀ fuel : Nat, matchTotalGo fuel [] [] = 0 := by
  intro fuel
  cases fuel <;> rfl

theorem matchTotal_self (a : List Char) : matchTotal a a = a.length := by
  cases a with
  | nil => rfl
  | cons c rest =>
    show matchTotalGo ((c :: rest).length + (c :: rest).length) (c :: rest) (c :: rest) = _
    rw [show (c :: rest).length + (c :: rest).length
        = ((c :: rest).length + rest.length) + 1 from by simp only [List.length_cons]; omega]
    simp only [matchTotalGo, findLongestMatch_self]
    rw [if_neg (by simp)]
    simp [matchTotalGo_nil]

theorem ratio_self (a : List Char) : ratio a a = 1 := by
  unfold ratio
  by_cases h : a.length + a.length = 0
  · rw [if_pos h]
  · rw [if_neg h]
    rw [matchTotal_self, Rat.divInt_eq_div]
    have hla : 0 < a.length + a.length := by omega
    have hpos : (0 : ℚ) < (a.length : ℚ) + (a.length : ℚ) := by exact_mod_cast hla
    push_cast
    rw [show (2 : ℚ) * (a.length : ℚ) = (a.length : ℚ) + (a.length : ℚ) from by ring]
    exact div_self (ne_of_gt hpos)

theorem ratio_nonneg (a b : List Char) : 0 ≤ ratio a b := by
  unfold ratio
  by_cases h : a.length + b.length = 0
  · rw [if_pos h]
    norm_num
  · rw [if_neg h, Rat.divInt_eq_div]
    apply div_nonneg
    · push_cast
      positivity
    · push_cast
      positivity

theorem ratio_le_one (a b : List Char) : ratio a b ≤ 1 := by
  unfold ratio
  by_cases h : a.length + b.length = 0
  · rw [if_pos h]
  · rw [if_neg h, Rat.divInt_eq_div]
    have hM1 : matchTotal a b ≤ a.length := matchTotalGo_le_left _ a b
    have hM2 : matchTotal a b ≤ b.length := matchTotalGo_le_right _ a b
    have hpos : (0 : ℚ) < (a.length : ℚ) + (b.length : ℚ) := by
      have hn : 0 < a.length + b.length := by omega
      exact_mod_cast hn
    push_cast
    rw [div_le_one hpos]
    have hnat : 2 * matchTotal a b ≤ a.length + b.length := by omega
    exact_mod_cast hnat

theorem similar_nonneg (a b : String) : 0 ≤ similar a b := ratio_nonneg _ _

theorem similar_le_one (a b : String) : similar a b ≤ 1 := ratio_le_one _ _

/-! ### Facts about the selector scan -/

theorem scanBest_ge (t : String) :
    ∀ (l : List (Nat × Nat × Option String)) (best : ℚ × Nat × Nat),
      best.1 ≤ (scanBest t best l).1 := by
  intro l
  induction l with
  | nil => intro best; simp [scanBest]
  | cons x rest ih =>
    intro best
    simp only [scanBest]
    by_cases h : cellScore t x > best.1
    · rw [if_pos h]
      exact le_trans (le_of_lt h) (ih (cellScore t x, x.1, x.2.1))
    · rw [if_neg h]
      exact ih best

theorem scanBest_le_all (t : String) :
    ∀ (l : List (Nat × Nat × Option String)) (best : ℚ × Nat × Nat)
      (x : Nat × Nat × Option String), x ∈ l → cellScore t x ≤ (scanBest t best l).1 := by
  intro l
  induction l with
  | nil =>
    intro best x hx
    cases hx
  | cons z rest ih =>
    intro best x hx
    simp only [scanBest]
    rcases List.mem_cons.mp hx with h | h
    · subst h
      by_cases hgt : cellScore t x > best.1
      · rw [if_pos hgt]
        exact scanBest_ge t rest (cellScore t x, x.1, x.2.1)
      · rw [if_neg hgt]
        exact le_trans (not_lt.mp hgt) (scanBest_ge t rest best)
    · by_cases hgt : cellScore t z > best.1
      · rw [if_pos hgt]
        exact ih _ x h
      · rw [if_neg hgt]
        exact ih best x h

theorem scanBest_stay (t : String) :
    ∀ (l : List (Nat × Nat × Option String)) (best : ℚ × Nat × Nat),
      (∀ x ∈ l, cellScore t x ≤ best.1) → scanBest t best l = best := by
  intro l
  induction l with
  | nil => intro best _; rfl
  | cons x rest ih =>
    intro best h
    simp only [scanBest]
    rw [if_neg (not_lt.mpr (h x (List.mem_cons_self x rest)))]
    exact ih best (fun y hy => h y (List.mem_cons_of_mem x hy))

theorem scanBest_attained (t : String) :
    ∀ (l : List (Nat × Nat × Option String)) (best : ℚ × Nat × Nat),
      scanBest t best l = best ∨
      ∃ l1 x l2, l = l1 ++ x :: l2 ∧
        (scanBest t best l).1 = cellScore t x ∧
        (scanBest t best l).2 = (x.1, x.2.1) ∧
        best.1 < (scanBest t best l).1 ∧
        ∀ y ∈ l1, cellScore t y < (scanBest t best l).1 := by
  intro l
  induction l with
  | nil => intro best; exact Or.inl rfl
  | cons x rest ih =>
    intro best
    by_cases h : cellScore t x > best.1
    · have hunf : scanBest t best (x :: rest) = scanBest t (cellScore t x, x.1, x.2.1) rest := by
        simp only [scanBest]
        rw [if_pos h]
      rcases ih (cellScore t x, x.1, x.2.1) with heq | ⟨l1, y, l2, hsplit, hs, hp, hlt, hall⟩
      · right
        refine ⟨[], x, rest, rfl, ?_, ?_, ?_, ?_⟩
        · rw [hunf, heq]
        · rw [hunf, heq]
        · rw [hunf, heq]
          exact h
        · intro y hy
          cases hy
      · right
        refine ⟨x :: l1, y, l2, by rw [hsplit, List.cons_append], ?_, ?_, ?_, ?_⟩
        · rw [hunf]
          exact hs
        · rw [hunf]
          exact hp
        · rw [hunf]
          exact lt_trans h hlt
        · intro z hz
          rcases List.mem_cons.mp hz with hz | hz
          · subst hz
            rw [hunf]
            exact hlt
          · rw [hunf]
            exact hall z hz
    · have hunf : scanBest t best (x :: rest) = scanBest t best rest := by
        simp only [scanBest]
        rw [if_neg h]
      rcases ih best with heq | ⟨l1, y, l2, hsplit, hs, hp, hlt, hall⟩
      · left
        rw [hunf, heq]
      · right
        refine ⟨x :: l1, y, l2, by rw [hsplit, List.cons_append], ?_, ?_, ?_, ?_⟩
        · rw [hunf]
          exact hs
        · rw [hunf]
          exact hp
        · rw [hunf]
          exact hlt
        · intro z hz
          rcases List.mem_cons.mp hz with hz | hz
          · subst hz
            rw [hunf]
            exact lt_of_le_of_lt (not_lt.mp h) hlt
          · rw [hunf]
            exact hall z hz

theorem cellScore_nonneg (t : String) (x : Nat × Nat × Option String) : 0 ≤ cellScore t x :=
  similar_nonneg _ _

/-! ### Claim C8 -/

/-- C8, counterexample: the similarity score of the source is not symmetric.
The pair of words tide and diet scores 1/4 in one argument order and 1/2 in
the other, because the longest-block recursion underlying the ratio depends
on the order of the arguments. -/
theorem similar_not_symmetric_counterexample :
    similar "tide" "diet" = Rat.divInt 1 4 ∧ similar "diet" "tide" = Rat.divInt 1 2 ∧
    ¬ similar "tide" "diet" = similar "diet" "tide" := by decide

/-- C8 (amended): for every string x, similar x x = 1; the score depends only
on the lowered character sequences of the two arguments, so a change of
letter case on either side leaves it unchanged; and every score lies in the
closed interval from 0 to 1.  Symmetry, asserted by the original claim, does
not hold in general. -/
theorem similar_properties (x a b a2 b2 : String)
    (ha : lowerChars a2.data = lowerChars a.data)
    (hb : lowerChars b2.data = lowerChars b.data) :
    similar x x = 1 ∧ similar a2 b2 = similar a b ∧ 0 ≤ similar a b ∧ similar a b ≤ 1 := by
  refine ⟨ratio_self _, ?_, similar_nonneg a b, similar_le_one a b⟩
  unfold similar
  rw [ha, hb]

/-- C8, witness: the words TIDE and tide lower to the same characters, so
their scores against tide coincide. -/
theorem similar_properties_witness :
    similar "TIDE" "tide" = similar "tide" "tide" :=
  (similar_properties "x" "tide" "tide" "TIDE" "tide" (by decide) (by decide)).2.1

/-! ### Claim C6 -/

/-- C6, counterexample: on the grid whose first row is empty and whose only
cell is at coordinates (1, 0), every cell scores 0 against the target, and
with threshold 0 the selector still clicks the initial default position
(0, 0) — which is not a cell of the grid at all, hence not the retained
maximum-scoring cell. -/
theorem selector_default_position_counterexample :
    click_button_by_relation [[], [some "a"]] "b" 0 = some (0, 0) ∧
    cells [[], [some "a"]] = [(1, 0, some "a")] ∧
    cellScore "b" (1, 0, some "a") = 0 := by decide

/-- C6 (amended): provided the first row of the grid is non-empty or some
cell scores positively, the selector behaves as claimed: an empty grid gives
no selection and has no cells to score; a returned position is a cell whose
score equals the maximal score, is at least the threshold, and strictly
exceeds the score of every earlier cell in row-major order; and whenever the
grid is non-empty and the best score reaches the threshold (equality
included) a selection is returned.  Without the proviso the returned
position can be the initial default (0, 0) even when that is not a cell. -/
theorem selector_best_match (g : ButtonGrid) (t : String) (θ : ℚ)
    (hproviso : g.head?.getD [] ≠ [] ∨ 0 < bestScoreOf g t) :
    (click_button_by_relation [] t θ = none ∧ cells ([] : ButtonGrid) = []) ∧
    (∀ p, click_button_by_relation g t θ = some p →
      θ ≤ bestScoreOf g t ∧
      ∃ l1 x l2, cells g = l1 ++ x :: l2 ∧ p = (x.1, x.2.1) ∧
        cellScore t x = bestScoreOf g t ∧
        (∀ y ∈ cells g, cellScore t y ≤ bestScoreOf g t) ∧
        (∀ y ∈ l1, cellScore t y < bestScoreOf g t)) ∧
    (g ≠ [] → θ ≤ bestScoreOf g t → ∃ p, click_button_by_relation g t θ = some p) := by
  refine ⟨⟨by simp [click_button_by_relation], rfl⟩, ?_, ?_⟩
  · intro p hp
    by_cases hg : g = []
    · rw [hg] at hp
      simp [click_button_by_relation] at hp
    · simp only [click_button_by_relation, if_neg hg] at hp
      by_cases hθ : (scanBest t (0, 0, 0) (cells g)).1 ≥ θ
      · rw [if_pos hθ] at hp
        have hpe : p = ((scanBest t (0, 0, 0) (cells g)).2.1, (scanBest t (0, 0, 0) (cells g)).2.2) :=
          (Option.some.inj hp).symm
        refine ⟨hθ, ?_⟩
        rcases scanBest_attained t (cells g) (0, 0, 0) with heq | ⟨l1, x, l2, hsplit, hs, hp2, hlt, hall⟩
        · have hbz : bestScoreOf g t = 0 := by
            unfold bestScoreOf
            rw [heq]
          rcases hproviso with hrow | hposb
          · cases g with
            | nil => exact absurd rfl hg
            | cons row grest =>
              cases row with
              | nil => simp at hrow
              | cons b0 row' =>
                have hc : cells ((b0 :: row') :: grest)
                    = (0, 0, b0) :: (rowCells 0 1 row' ++ gridCells 1 grest) := by
                  simp [cells, gridCells, rowCells]
                refine ⟨[], (0, 0, b0), rowCells 0 1 row' ++ gridCells 1 grest,
                  by rw [hc]; rfl, ?_, ?_, ?_, ?_⟩
                · rw [hpe, heq]
                · have hle : cellScore t (0, 0, b0)
                      ≤ (scanBest t (0, 0, 0) (cells ((b0 :: row') :: grest))).1 :=
                    scanBest_le_all t _ _ _ (by rw [hc]; exact List.mem_cons_self _ _)
                  have hle0 : cellScore t (0, 0, b0) ≤ 0 := by
                    rw [heq] at hle
                    exact hle
                  rw [hbz]
                  exact le_antisymm hle0 (cellScore_nonneg t _)
                · intro y hy
                  exact scanBest_le_all t _ (0, 0, 0) y hy
                · intro y hy
                  exact absurd hy (List.not_mem_nil y)
          · rw [hbz] at hposb
            exact absurd hposb (lt_irrefl 0)
        · refine ⟨l1, x, l2, hsplit, ?_, hs.symm, ?_, ?_⟩
          · rw [hpe, show ((scanBest t (0, 0, 0) (cells g)).2.1,
              (scanBest t (0, 0, 0) (cells g)).2.2)
              = (scanBest t (0, 0, 0) (cells g)).2 from rfl, hp2]
          · intro y hy
            exact scanBest_le_all t (cells g) (0, 0, 0) y hy
          · exact hall
      · rw [if_neg hθ] at hp
        exact Option.noConfusion hp
  · intro hg hθ
    have hθ2 : (scanBest t (0, 0, 0) (cells g)).1 ≥ θ := hθ
    refine ⟨((scanBest t (0, 0, 0) (cells g)).2.1, (scanBest t (0, 0, 0) (cells g)).2.2), ?_⟩
    simp only [click_button_by_relation, if_neg hg]
    rw [if_pos hθ2]

/-- C6, witness: a one-cell grid whose label equals the target is selected at
the default threshold 3/5. -/
theorem selector_best_match_witness :
    ∃ p, click_button_by_relation [[some "abc"]] "abc" (Rat.divInt 3 5) = some p :=
  (selector_best_match [[some "abc"]] "abc" (Rat.divInt 3 5) (Or.inl (by decide))).2.2
    (by decide) (by decide)

/-! ### Claim C10 -/

/-- C10: on a non-empty grid all of whose cells score 0, threshold 0 selects
and clicks the default top-left coordinates (0, 0): the initialisation
best_position = (0, 0) with best_score = 0 is never replaced, because the
comparison of the scan is strict. -/
theorem selector_zero_score_default (g : ButtonGrid) (t : String)
    (hne : g ≠ []) (hz : ∀ x ∈ cells g, cellScore t x = 0) :
    click_button_by_relation g t 0 = some (0, 0) := by
  have hstay : scanBest t (0, 0, 0) (cells g) = (0, 0, 0) :=
    scanBest_stay t (cells g) (0, 0, 0) (fun x hx => le_of_eq (hz x hx))
  simp only [click_button_by_relation, if_neg hne]
  rw [hstay]
  rw [if_pos (le_refl (0 : ℚ))]

/-- C10, witness: a two-row grid whose labels share no character with the
target scores 0 everywhere and the default (0, 0) is clicked. -/
theorem selector_zero_score_default_witness :
    click_button_by_relation [[some "b"], [some "c"]] "a" 0 = some (0, 0) :=
  selector_zero_score_default [[some "b"], [some "c"]] "a" (by decide) (by decide)

/-! ### Facts about the monitor loop -/

theorem monitorCycle_count (s : MonitorState) (c : Nat) (d : Bool) :
    monitorCycle s ⟨CycleObs.count c, d⟩ =
      if c > 0 ∧ c ≠ s.last_task_count then
        (s, [CycleEvent.errorReported, CycleEvent.reconnected], check_interval)
      else if c = 0 ∧ s.last_task_count > 0 then
        (if d then
          ({ s with last_task_count := 0 }, [CycleEvent.notif NotifKind.clearedK true], check_interval)
         else (s, [CycleEvent.notif NotifKind.clearedK false], check_interval))
      else (s, [], check_interval) := rfl

theorem monitorRun_length : ∀ (inps : List CycleInput) (s : MonitorState),
    ((monitorRun s inps).2).length = inps.length := by
  intro inps
  induction inps with
  | nil => intro s; rfl
  | cons x xs ih =>
    intro s
    simp only [monitorRun, List.length_cons]
    rw [ih]

theorem monitorRun_getElem_exc :
    ∀ (inps : List CycleInput) (s : MonitorState) (k : Nat) (inp : CycleInput),
      inps[k]? = some inp → inp.obs = CycleObs.exc →
      (monitorRun s inps).2[k]?
        = some ([CycleEvent.errorReported, CycleEvent.reconnected], check_interval) := by
  intro inps
  induction inps with
  | nil =>
    intro s k inp hk _
    simp at hk
  | cons x xs ih =>
    intro s k inp hk hexc
    cases k with
    | zero =>
      have hx : x = inp := by simpa using hk
      subst hx
      obtain ⟨o, d⟩ := x
      have ho : o = CycleObs.exc := hexc
      subst ho
      show ((monitorRun s (⟨CycleObs.exc, d⟩ :: xs)).2)[0]? = _
      simp only [monitorRun]
      rw [List.getElem?_cons_zero]
      rfl
    | succ n =>
      have hk2 : xs[n]? = some inp := by simpa using hk
      show ((monitorRun s (x :: xs)).2)[n + 1]? = _
      simp only [monitorRun]
      rw [List.getElem?_cons_succ]
      exact ih ((monitorCycle s x).1) n inp hk2 hexc

theorem monitorCycle_frozen (s : MonitorState) (inp : CycleInput)
    (hin : inp.deliverOk = false) : (monitorCycle s inp).1 = s := by
  obtain ⟨o, d⟩ := inp
  have hd : d = false := hin
  subst hd
  cases o with
  | exc => rfl
  | count c =>
    rw [monitorCycle_count]
    by_cases h1 : c > 0 ∧ c ≠ s.last_task_count
    · rw [if_pos h1]
    · rw [if_neg h1]
      by_cases h2 : c = 0 ∧ s.last_task_count > 0
      · rw [if_pos h2]
        rfl
      · rw [if_neg h2]

theorem monitorRun_frozen : ∀ (inps : List CycleInput) (s : MonitorState),
    (∀ x ∈ inps, x.deliverOk = false) → (monitorRun s inps).1 = s := by
  intro inps
  induction inps with
  | nil => intro s _; rfl
  | cons x xs ih =>
    intro s hall
    simp only [monitorRun]
    rw [monitorCycle_frozen s x (hall x (List.mem_cons_self x xs))]
    exact ih s (fun y hy => hall y (List.mem_cons_of_mem x hy))

/-! ### Claim C1 -/

/-- C1: evaluation of the monitor loop on the observed counts
[0, 3, 3, 0, 0, 5] from last_task_count = 0 with every delivery succeeding.
Because the branch for a changed positive count formats its message with the
undefined name TARGET_Bot, the cycles at indices 1, 2 and 5 raise NameError
and produce only an error report plus a reconnect; no notification is ever
dispatched, and last_task_count never leaves 0, so the cleared notification
claimed at index 3 cannot occur either. -/
theorem monitor_sequence_name_error :
    (monitorRun ⟨0, none⟩ c1Inputs).2.map Prod.fst =
      [[], [CycleEvent.errorReported, CycleEvent.reconnected],
       [CycleEvent.errorReported, CycleEvent.reconnected], [], [],
       [CycleEvent.errorReported, CycleEvent.reconnected]] ∧
    (monitorRun ⟨0, none⟩ c1Inputs).1 = ⟨0, none⟩ := by decide

/-! ### Claim C2 -/

/-- C2: an exception escaping to the handler of a cycle makes that cycle
send an error report and run the reconnect procedure; the loop does not
terminate — the run still produces an output for every input — and the
pause after the failed cycle is the fixed check_interval. -/
theorem monitor_failure_triggers_reconnect (s : MonitorState) (inps : List CycleInput)
    (k : Nat) (inp : CycleInput) (hk : inps[k]? = some inp) (hexc : inp.obs = CycleObs.exc) :
    (monitorRun s inps).2[k]?
      = some ([CycleEvent.errorReported, CycleEvent.reconnected], check_interval) ∧
    ((monitorRun s inps).2).length = inps.length :=
  ⟨monitorRun_getElem_exc inps s k inp hk hexc, monitorRun_length inps s⟩

/-- C2, witness at a one-cycle run whose single cycle raises. -/
theorem monitor_failure_triggers_reconnect_witness :
    (monitorRun ⟨0, none⟩ [⟨CycleObs.exc, true⟩]).2[0]?
      = some ([CycleEvent.errorReported, CycleEvent.reconnected], check_interval) ∧
    ((monitorRun ⟨0, none⟩ [⟨CycleObs.exc, true⟩]).2).length
      = ([⟨CycleObs.exc, true⟩] : List CycleInput).length :=
  monitor_failure_triggers_reconnect ⟨0, none⟩ [⟨CycleObs.exc, true⟩] 0 ⟨CycleObs.exc, true⟩
    (by decide) rfl

/-! ### Claim C4 -/

/-- C4, counterexample: with last_task_count = 3, two consecutive cycles both
observe count 0; the delivery of the first cycle fails, so the state stays
at 3 and the second cycle dispatches the cleared notification again — the
second cycle is not notification-free. -/
theorem monitor_repeat_notification_counterexample :
    (monitorCycle ⟨3, none⟩ ⟨CycleObs.count 0, false⟩).2.1
      = [CycleEvent.notif NotifKind.clearedK false] ∧
    (monitorCycle (monitorCycle ⟨3, none⟩ ⟨CycleObs.count 0, false⟩).1
        ⟨CycleObs.count 0, true⟩).2.1
      = [CycleEvent.notif NotifKind.clearedK true] := by decide

/-- C4 (amended): for two consecutive cycles observing the same count, and
with the first delivery succeeding whenever one is attempted, the second
cycle dispatches no notification; at most one available notification is sent
across both cycles (in fact none, because of the TARGET_Bot defect); and a
cycle observing a count equal to last_task_count leaves the state untouched,
emits no event, and pauses for the fixed interval. -/
theorem monitor_repeat_idempotent (s : MonitorState) (c : Nat) (i1 i2 : CycleInput)
    (h1 : i1.obs = CycleObs.count c) (h2 : i2.obs = CycleObs.count c)
    (hd : i1.deliverOk = true) :
    (∀ k b, ¬ CycleEvent.notif k b ∈ (monitorCycle (monitorCycle s i1).1 i2).2.1) ∧
    ((monitorCycle s i1).2.1
      ++ (monitorCycle (monitorCycle s i1).1 i2).2.1).countP isAvailNotif ≤ 1 ∧
    (c = s.last_task_count →
      monitorCycle s i1 = (s, [], check_interval) ∧
      monitorCycle (monitorCycle s i1).1 i2 = (s, [], check_interval)) := by
  obtain ⟨o1, d1⟩ := i1
  obtain ⟨o2, d2⟩ := i2
  have ho1 : o1 = CycleObs.count c := h1
  have ho2 : o2 = CycleObs.count c := h2
  have hd1 : d1 = true := hd
  subst ho1
  subst ho2
  subst hd1
  by_cases hc1 : c > 0 ∧ c ≠ s.last_task_count
  · have e1 : monitorCycle s ⟨CycleObs.count c, true⟩
        = (s, [CycleEvent.errorReported, CycleEvent.reconnected], check_interval) := by
      rw [monitorCycle_count, if_pos hc1]
    have s1 : (monitorCycle s ⟨CycleObs.count c, true⟩).1 = s := by rw [e1]
    have ev1 : (monitorCycle s ⟨CycleObs.count c, true⟩).2.1
        = [CycleEvent.errorReported, CycleEvent.reconnected] := by rw [e1]
    have e2 : monitorCycle s ⟨CycleObs.count c, d2⟩
        = (s, [CycleEvent.errorReported, CycleEvent.reconnected], check_interval) := by
      rw [monitorCycle_count, if_pos hc1]
    have ev2 : (monitorCycle s ⟨CycleObs.count c, d2⟩).2.1
        = [CycleEvent.errorReported, CycleEvent.reconnected] := by rw [e2]
    refine ⟨?_, ?_, ?_⟩
    · intro k b
      rw [s1, ev2]
      simp
    · rw [ev1, s1, ev2]
      decide
    · intro hceq
      exact absurd hceq hc1.2
  · by_cases hc2 : c = 0 ∧ s.last_task_count > 0
    · have e1 : monitorCycle s ⟨CycleObs.count c, true⟩
          = ({ s with last_task_count := 0 },
             [CycleEvent.notif NotifKind.clearedK true], check_interval) := by
        rw [monitorCycle_count, if_neg hc1, if_pos hc2]
        rfl
      have s1 : (monitorCycle s ⟨CycleObs.count c, true⟩).1 = { s with last_task_count := 0 } := by
        rw [e1]
      have ev1 : (monitorCycle s ⟨CycleObs.count c, true⟩).2.1
          = [CycleEvent.notif NotifKind.clearedK true] := by rw [e1]
      have e2 : monitorCycle { s with last_task_count := 0 } ⟨CycleObs.count c, d2⟩
          = ({ s with last_task_count := 0 }, [], check_interval) := by
        rw [monitorCycle_count]
        have hcc : ¬ (c > 0 ∧ c ≠ ({ s with last_task_count := 0 } : MonitorState).last_task_count) := by
          simp [hc2.1]
        rw [if_neg hcc]
        have hc0 : ¬ (c = 0 ∧ ({ s with last_task_count := 0 } : MonitorState).last_task_count > 0) := by
          simp
        rw [if_neg hc0]
      have ev2 : (monitorCycle { s with last_task_count := 0 } ⟨CycleObs.count c, d2⟩).2.1
          = [] := by rw [e2]
      refine ⟨?_, ?_, ?_⟩
      · intro k b
        rw [s1, ev2]
        simp
      · rw [ev1, s1, ev2]
        decide
      · intro hceq
        exfalso
        have hg := hc2.2
        have hz := hc2.1
        omega
    · have e1 : monitorCycle s ⟨CycleObs.count c, true⟩ = (s, [], check_interval) := by
        rw [monitorCycle_count, if_neg hc1, if_neg hc2]
      have s1 : (monitorCycle s ⟨CycleObs.count c, true⟩).1 = s := by rw [e1]
      have ev1 : (monitorCycle s ⟨CycleObs.count c, true⟩).2.1 = [] := by rw [e1]
      have e2 : monitorCycle s ⟨CycleObs.count c, d2⟩ = (s, [], check_interval) := by
        rw [monitorCycle_count, if_neg hc1, if_neg hc2]
      have ev2 : (monitorCycle s ⟨CycleObs.count c, d2⟩).2.1 = [] := by rw [e2]
      refine ⟨?_, ?_, ?_⟩
      · intro k b
        rw [s1, ev2]
        simp
      · rw [ev1, s1, ev2]
        decide
      · intro _
        refine ⟨e1, ?_⟩
        rw [s1]
        exact e2

/-- C4, witness: two cycles both observing count 5 from state 0 dispatch no
available notification at all. -/
theorem monitor_repeat_idempotent_witness :
    ((monitorCycle ⟨0, none⟩ ⟨CycleObs.count 5, true⟩).2.1
      ++ (monitorCycle (monitorCycle ⟨0, none⟩ ⟨CycleObs.count 5, true⟩).1
            ⟨CycleObs.count 5, true⟩).2.1).countP isAvailNotif ≤ 1 :=
  (monitor_repeat_idempotent ⟨0, none⟩ 5 ⟨CycleObs.count 5, true⟩ ⟨CycleObs.count 5, true⟩
    rfl rfl rfl).2.1

/-! ### Claim C5 -/

/-- C5: when the delivery of a cycle fails — covering both an unresolvable
destination and a rejected send — the MonitorState, hence last_task_count
and last_notification_time, is left exactly as it was; and a whole run all
of whose deliveries fail keeps the initial state, so persistent delivery
failure freezes last_task_count. -/
theorem monitor_state_frozen_without_delivery (s : MonitorState) (inp : CycleInput)
    (inps : List CycleInput) (hin : inp.deliverOk = false)
    (hall : ∀ x ∈ inps, x.deliverOk = false) :
    (monitorCycle s inp).1 = s ∧ (monitorRun s inps).1 = s :=
  ⟨monitorCycle_frozen s inp hin, monitorRun_frozen inps s hall⟩

/-- C5, witness: a cleared-notification cycle whose delivery fails, followed
by a failing run, keeps last_task_count at 3. -/
theorem monitor_state_frozen_without_delivery_witness :
    (monitorCycle ⟨3, none⟩ ⟨CycleObs.count 0, false⟩).1 = ⟨3, none⟩ ∧
    (monitorRun ⟨3, none⟩ [⟨CycleObs.count 0, false⟩, ⟨CycleObs.count 7, false⟩]).1
      = ⟨3, none⟩ :=
  monitor_state_frozen_without_delivery ⟨3, none⟩ ⟨CycleObs.count 0, false⟩
    [⟨CycleObs.count 0, false⟩, ⟨CycleObs.count 7, false⟩] rfl (by decide)

/-! ### Claim C7 -/

/-- C7: the cycle count equals the number of literal bullet-marker
occurrences in the most recent message when that message carries the
task-list marker, and is 0 otherwise — in particular 0 for a message without
the marker regardless of its content; a navigation failure makes the cycle
observe 0, which feeds the ordinary zero-count path of the monitor with no
further side effect. -/
theorem extractor_marker_count (recent : List (Option String)) (t u : String)
    (rest rest2 : List (Option String))
    (hmark : containsStr t activeTasksMarker = true) (ht : t ≠ "")
    (hnomark : containsStr u activeTasksMarker = false) :
    get_task_count false recent = 0 ∧
    get_task_count true (some t :: rest) = countOccur t bulletMarker ∧
    get_task_count true (some u :: rest2) = 0 ∧
    (∀ (s : MonitorState) (dOk : Bool),
      monitorCycle s ⟨CycleObs.count (get_task_count false recent), dOk⟩
        = monitorCycle s ⟨CycleObs.count 0, dOk⟩) := by
  refine ⟨rfl, ?_, ?_, ?_⟩
  · simp [get_task_count, ht, hmark]
  · simp [get_task_count, hnomark]
  · intro s dOk
    rfl

/-- C7, witness: a task-list message with three bullet markers yields 3. -/
theorem extractor_marker_count_witness :
    get_task_count true
      [some ("Active Tasks:\n" ++ bulletMarker ++ " one\n" ++ bulletMarker ++ " two\n"
        ++ bulletMarker ++ " three")] = 3 := by
  have h := extractor_marker_count []
    ("Active Tasks:\n" ++ bulletMarker ++ " one\n" ++ bulletMarker ++ " two\n"
      ++ bulletMarker ++ " three") "x" [] [] (by decide) (by decide) (by decide)
  rw [h.2.1]
  decide

/-! ### Claim C9 -/

/-- C9, counterexample: the error-severity path of send_notification does
deliver verbatim but only to the primary destination with no owner
duplicate, while the path that duplicates to a configured owner —
send_error_notification — does not deliver verbatim: it wraps the message in
an error banner and appends a timestamp.  No path both delivers verbatim and
duplicates to the owner, refuting the claim at the message boom. -/
theorem dispatcher_split_paths_counterexample :
    (send_notification true true true "boom" "T" "x" true).2 = [⟨Dest.primary, "boom"⟩] ∧
    send_error_notification true true "boom" "T" =
      [⟨Dest.primary, "‚ùå BOT ERROR ‚ùå\n\nboom\n\nTime: T"⟩,
       ⟨Dest.owner, "‚ùå BOT ERROR ‚ùå\n\nboom\n\nTime: T"⟩] ∧
    ¬ "‚ùå BOT ERROR ‚ùå\n\nboom\n\nTime: T" = "boom" := by decide

/-- C9 (amended): an error-severity message sent through send_notification
is delivered verbatim, without timestamp, to the primary destination only
and is never duplicated to the owner; an info-severity message is stamped
with the delivery timestamp and also goes only to the primary destination;
an unresolved destination sends nothing; and reports sent through
send_error_notification are wrapped in the error banner with a timestamp
appended, going to the primary destination exactly when it is resolved and
to the owner destination exactly when one is configured. -/
theorem dispatcher_paths (r o : Bool) (msg ts ex : String) :
    (send_notification true o true msg ts ex true).2 = [⟨Dest.primary, msg⟩] ∧
    (send_notification true o true msg ts ex false).2 = [⟨Dest.primary, stampInfo msg ts⟩] ∧
    send_notification false o true msg ts ex true = (false, []) ∧
    (∀ e ∈ send_error_notification r o msg ts, e.text = errorWrap msg ts) ∧
    ((∃ e ∈ send_error_notification r o msg ts, e.dest = Dest.owner) ↔ o = true) ∧
    ((∃ e ∈ send_error_notification r o msg ts, e.dest = Dest.primary) ↔ r = true) := by
  refine ⟨rfl, rfl, rfl, ?_, ?_, ?_⟩ <;> cases r <;> cases o <;> simp [send_error_notification]

/-- C9, witness: with both destinations configured, the owner copy carries
the banner-wrapped text. -/
theorem dispatcher_paths_witness :
    (⟨Dest.owner, errorWrap "boom" "T"⟩ : SendEvent).text = errorWrap "boom" "T" :=
  (dispatcher_paths true true "boom" "T" "x").2.2.2.1 ⟨Dest.owner, errorWrap "boom" "T"⟩
    (by decide)

/-! ### Facts about the reconnect loop -/

theorem reconnectGo_success_iff (oc : Nat → AttemptOutcome) :
    ∀ (fuel a : Nat),
      ((reconnectGo oc a fuel).1 = true ↔
        ∃ i, i < fuel ∧ oc (a + i) = AttemptOutcome.success ∧
          ∀ j, j < i → oc (a + j) ≠ AttemptOutcome.success ∧
            oc (a + j) ≠ AttemptOutcome.sessionPasswordNeeded) := by
  intro fuel
  induction fuel with
  | zero =>
    intro a
    constructor
    · intro h
      exact absurd h (by simp [reconnectGo])
    · rintro ⟨i, hi, _, _⟩
      exact absurd hi (Nat.not_lt_zero i)
  | succ n ih =>
    intro a
    cases hoc : oc a with
    | success =>
      constructor
      · intro _
        exact ⟨0, Nat.succ_pos n, by simpa using hoc, fun j hj => absurd hj (Nat.not_lt_zero j)⟩
      · intro _
        simp [reconnectGo, hoc]
    | floodWait s =>
      have hred : (reconnectGo oc a (n + 1)).1 = (reconnectGo oc (a + 1) n).1 := by
        simp [reconnectGo, hoc]
      rw [hred, ih (a + 1)]
      constructor
      · rintro ⟨i, hi, hsucc, hclean⟩
        refine ⟨i + 1, Nat.succ_lt_succ hi, ?_, ?_⟩
        · rw [show a + (i + 1) = a + 1 + i from by omega]
          exact hsucc
        · intro j hj
          cases j with
          | zero =>
            constructor
            · simp [hoc]
            · simp [hoc]
          | succ m =>
            have hm := hclean m (by omega)
            rw [show a + (m + 1) = a + 1 + m from by omega]
            exact hm
      · rintro ⟨i, hi, hsucc, hclean⟩
        cases i with
        | zero =>
          simp [hoc] at hsucc
        | succ m =>
          refine ⟨m, by omega, ?_, ?_⟩
          · rw [show a + 1 + m = a + (m + 1) from by omega]
            exact hsucc
          · intro j hj
            have hm := hclean (j + 1) (by omega)
            rw [show a + 1 + j = a + (j + 1) from by omega]
            exact hm
    | sessionPasswordNeeded =>
      constructor
      · intro h
        exact absurd h (by simp [reconnectGo, hoc])
      · rintro ⟨i, hi, hsucc, hclean⟩
        cases i with
        | zero =>
          simp [hoc] at hsucc
        | succ m =>
          have hcl := (hclean 0 (Nat.succ_pos m)).2
          simp [hoc] at hcl
    | notAuthorized =>
      have hred : (reconnectGo oc a (n + 1)).1 = (reconnectGo oc (a + 1) n).1 := by
        simp [reconnectGo, hoc]
      rw [hred, ih (a + 1)]
      constructor
      · rintro ⟨i, hi, hsucc, hclean⟩
        refine ⟨i + 1, Nat.succ_lt_succ hi, ?_, ?_⟩
        · rw [show a + (i + 1) = a + 1 + i from by omega]
          exact hsucc
        · intro j hj
          cases j with
          | zero =>
            constructor
            · simp [hoc]
            · simp [hoc]
          | succ m =>
            have hm := hclean m (by omega)
            rw [show a + (m + 1) = a + 1 + m from by omega]
            exact hm
      · rintro ⟨i, hi, hsucc, hclean⟩
        cases i with
        | zero =>
          simp [hoc] at hsucc
        | succ m =>
          refine ⟨m, by omega, ?_, ?_⟩
          · rw [show a + 1 + m = a + (m + 1) from by omega]
            exact hsucc
          · intro j hj
            have hm := hclean (j + 1) (by omega)
            rw [show a + 1 + j = a + (j + 1) from by omega]
            exact hm
    | genericFailure =>
      have hred : (reconnectGo oc a (n + 1)).1 = (reconnectGo oc (a + 1) n).1 := by
        simp [reconnectGo, hoc]
      rw [hred, ih (a + 1)]
      constructor
      · rintro ⟨i, hi, hsucc, hclean⟩
        refine ⟨i + 1, Nat.succ_lt_succ hi, ?_, ?_⟩
        · rw [show a + (i + 1) = a + 1 + i from by omega]
          exact hsucc
        · intro j hj
          cases j with
          | zero =>
            constructor
            · simp [hoc]
            · simp [hoc]
          | succ m =>
            have hm := hclean m (by omega)
            rw [show a + (m + 1) = a + 1 + m from by omega]
            exact hm
      · rintro ⟨i, hi, hsucc, hclean⟩
        cases i with
        | zero =>
          simp [hoc] at hsucc
        | succ m =>
          refine ⟨m, by omega, ?_, ?_⟩
          · rw [show a + 1 + m = a + (m + 1) from by omega]
            exact hsucc
          · intro j hj
            have hm := hclean (j + 1) (by omega)
            rw [show a + 1 + j = a + (j + 1) from by omega]
            exact hm

theorem reconnectGo_attempts (oc : Nat → AttemptOutcome) :
    ∀ (fuel a : Nat), ((reconnectGo oc a fuel).2.countP isAttemptStart) ≤ fuel := by
  intro fuel
  induction fuel with
  | zero =>
    intro a
    simp [reconnectGo, List.countP_cons, isAttemptStart]
  | succ n ih =>
    intro a
    cases hoc : oc a with
    | success =>
      simp [reconnectGo, hoc, List.countP_cons, isAttemptStart]
    | floodWait s =>
      have hih := ih (a + 1)
      simp [reconnectGo, hoc, List.countP_cons, isAttemptStart]
      all_goals omega
    | sessionPasswordNeeded =>
      simp [reconnectGo, hoc, List.countP_cons, isAttemptStart]
    | notAuthorized =>
      have hih := ih (a + 1)
      simp [reconnectGo, hoc, List.countP_cons, isAttemptStart]
      all_goals omega
    | genericFailure =>
      have hih := ih (a + 1)
      simp [reconnectGo, hoc, List.countP_cons, isAttemptStart]
      all_goals omega

theorem reconnect_flood_head (oc : Nat → AttemptOutcome) (s : Nat)
    (h : oc 0 = AttemptOutcome.floodWait s) :
    ∃ tail, (reconnect oc).2
      = REvent.attemptStarted 0 :: REvent.errorReported :: REvent.floodSlept s :: tail := by
  refine ⟨(reconnectGo oc 1 4).2, ?_⟩
  show (reconnectGo oc 0 max_retries).2 = _
  rw [show max_retries = 4 + 1 from rfl]
  simp [reconnectGo, h]

/-! ### Claim C3 -/

/-- C3, counterexample: with outcomes that are rate-limit signals on the
first five attempts and success from the sixth one on — no genuine failure
at all — the procedure spends the whole retry bound on the rate-limited
attempts, never reaches the success, and reports the critical failure.
Under the claim a rate-limited attempt is not counted against the bound and
the same attempt is retried after the signalled wait, so the procedure would
succeed here. -/
theorem reconnect_floodwait_counterexample :
    reconnect (fun i => if i < 5 then AttemptOutcome.floodWait 1 else AttemptOutcome.success) =
      (false,
       [REvent.attemptStarted 0, REvent.errorReported, REvent.floodSlept 1,
        REvent.attemptStarted 1, REvent.errorReported, REvent.floodSlept 1,
        REvent.attemptStarted 2, REvent.errorReported, REvent.floodSlept 1,
        REvent.attemptStarted 3, REvent.errorReported, REvent.floodSlept 1,
        REvent.attemptStarted 4, REvent.errorReported, REvent.floodSlept 1,
        REvent.criticalReported]) := by decide

/-- C3 (amended): reconnect makes at most max_retries attempts in total; it
succeeds exactly when some attempt with index below max_retries succeeds
while every earlier attempt ends in a continuing outcome — a rate-limit
wait, an unauthorized session or a generic failure, each of which consumes
one attempt of the bound; and a rate-limited first attempt sleeps the
side-specified number of seconds, in place of the fixed retry delay, before
the loop moves on to the next attempt. -/
theorem reconnect_retry_policy (oc : Nat → AttemptOutcome) :
    ((reconnect oc).2.countP isAttemptStart ≤ max_retries) ∧
    ((reconnect oc).1 = true ↔
      ∃ i, i < max_retries ∧ oc i = AttemptOutcome.success ∧ noEarlyExit oc i) ∧
    (∀ s, oc 0 = AttemptOutcome.floodWait s →
      ∃ tail, (reconnect oc).2
        = REvent.attemptStarted 0 :: REvent.errorReported :: REvent.floodSlept s :: tail) := by
  refine ⟨reconnectGo_attempts oc max_retries 0, ?_, fun s h => reconnect_flood_head oc s h⟩
  have h := reconnectGo_success_iff oc max_retries 0
  simpa [reconnect, noEarlyExit] using h

/-- C3, witness: a generic failure on the first two attempts and a success
on the third stays within the bound and reconnects. -/
theorem reconnect_retry_policy_witness :
    (reconnect (fun i =>
      if i = 2 then AttemptOutcome.success else AttemptOutcome.genericFailure)).1 = true :=
  (reconnect_retry_policy _).2.1.mpr ⟨2, by decide, by decide, by decide⟩
